import Mathlib

/-!
Shallow embedding of the Conversation Matching & Response Selection Engine of
`openai-api-mock` (`src/matcher.ts`, `MessageMatcherService`), together with the
data model it consumes (`src/types.ts`).

Modelling conventions:
* TypeScript optional fields become `Option`; JavaScript string/number
  truthiness (`undefined`, `""` and `0` are falsy) is modelled explicitly.
* JS `number` arithmetic on the score table (1.0, 0.8, 0.6, 0.4, 0.1 and their
  sums divided by small counts) is modelled over `ℚ`.
* The two external collaborators used by the matcher — the host regular
  expression engine (`new RegExp(p, 'i')`, which may throw on an invalid
  pattern) and the Fuse.js token-similarity search — are parameters of the
  embedding, collected in an `Env` structure.  A failed `new RegExp` is
  `none` from `Env.regexCompile`; a `fuse.search` call returns the list of
  result scores (each itself optional, as Fuse's `score` field is optional).
* The only `logger.warn` call in the matcher (invalid regex) is modelled as an
  explicit warning list in results; `logger.debug` calls are pure tracing and
  are not modelled.
-/

namespace OpenAIApiMock

/-- `role: 'system' | 'user' | 'assistant' | 'tool'` from `src/types.ts`. -/
inductive Role where
  | system
  | user
  | assistant
  | tool
deriving DecidableEq, Repr

/-- `matcher?: 'exact' | 'fuzzy' | 'regex' | 'contains' | 'any'` from `src/types.ts`. -/
inductive MatcherKind where
  | exact
  | fuzzy
  | regex
  | contains
  | any
deriving DecidableEq, Repr

/-- `ToolCall` from `src/types.ts`; its payload is opaque to the matcher. -/
structure ToolCall where
  id : String
  fnName : String
  fnArguments : String
deriving DecidableEq, Repr

/-- One element of `ChatCompletionRequest['messages']` from `src/types.ts`. -/
structure IncomingMessage where
  role : Role
  content : Option String := none
  tool_calls : Option (List ToolCall) := none
  tool_call_id : Option String := none
deriving DecidableEq, Repr

/-- `ConversationMessage` from `src/types.ts` (one turn specification of a flow). -/
structure ConversationMessage where
  role : Role
  content : Option String := none
  matcher : Option MatcherKind := none
  threshold : Option ℚ := none
  tool_calls : Option (List ToolCall) := none
  tool_call_id : Option String := none
deriving DecidableEq, Repr

/-- `MockResponse` from `src/types.ts`: a named conversation flow. -/
structure MockResponse where
  id : String
  messages : List ConversationMessage
deriving DecidableEq, Repr

/-- `ChatCompletionRequest` from `src/types.ts`, restricted to the fields the
matcher reads (`messages`; `model` is carried but never interpreted). -/
structure ChatCompletionRequest where
  model : String := ""
  messages : List IncomingMessage
deriving DecidableEq, Repr

/-- JavaScript truthiness of an optional string: `undefined` and `""` are falsy. -/
def strTruthy : Option String → Bool
  | none => false
  | some s => s ≠ ""

/-- JavaScript `v || d` for an optional number `v`: `undefined` and `0` are falsy. -/
def numOrDefault (v : Option ℚ) (d : ℚ) : ℚ :=
  match v with
  | none => d
  | some x => if x = 0 then d else x

/-- The external collaborators of `MessageMatcherService`. -/
structure Env where
  /-- `new RegExp(pattern, 'i')` followed by `.test`: `none` when the pattern
  does not compile (the `catch` branch of the source). -/
  regexCompile : String → Option (String → Bool)
  /-- `new Fuse([pattern], { includeScore: true, threshold: 0.6 }).search(incoming)`:
  the scores of the returned results, in order.  The corpus of the search is
  exactly the single pattern, as in the source. -/
  fuseSearch : String → String → List (Option ℚ)

/-- `MATCHER_SCORES` from `src/matcher.ts` lines 9–15: the fixed specificity
weight of each matcher kind. -/
def MATCHER_SCORES : MatcherKind → ℚ
  | .exact => 1
  | .regex => 0.8
  | .contains => 0.6
  | .fuzzy => 0.4
  | .any => 0.1

/-- The message of the `this.logger.warn` call in the `regex` branch of
`matchSingleMessage` (`src/matcher.ts` line 140). -/
def warnInvalidRegex (patternContent : String) : String :=
  "Invalid regex pattern: " ++ patternContent

/-- Whitespace stripped by JS `String.prototype.trim` (the ASCII part). -/
def isTrimWhitespace (c : Char) : Bool :=
  c = ' ' ∨ c = '\t' ∨ c = '\n' ∨ c = '\r' ∨ c = '\x0b' ∨ c = '\x0c'

/-- JS `String.prototype.trim`: strip leading and trailing whitespace. -/
def strTrim (s : String) : String :=
  ⟨((s.toList.dropWhile isTrimWhitespace).reverse.dropWhile isTrimWhitespace).reverse⟩

/-- JS `String.prototype.toLowerCase`, ASCII case mapping. -/
def charToLower (c : Char) : Char :=
  if 'A' ≤ c ∧ c ≤ 'Z' then Char.ofNat (c.toNat + 32) else c

/-- JS `String.prototype.toLowerCase` over a whole string. -/
def strToLower (s : String) : String :=
  ⟨s.toList.map charToLower⟩

/-- JS `haystack.includes(needle)` on `List Char`: `needle` starts at the head. -/
def charsStartWith : List Char → List Char → Bool
  | [], _ => true
  | _ :: _, [] => false
  | a :: as, b :: bs => a == b && charsStartWith as bs

/-- JS `haystack.includes(needle)` on `List Char`: `needle` occurs somewhere. -/
def charsInclude (needle : List Char) : List Char → Bool
  | [] => needle.isEmpty
  | c :: rest => charsStartWith needle (c :: rest) || charsInclude needle rest

/-- JS `String.prototype.includes`. -/
def strIncludes (haystack needle : String) : Bool :=
  charsInclude needle.toList haystack.toList

/-- `matchSingleMessage` from `src/matcher.ts` lines 113–150.  Returns the
boolean result together with the warnings logged during the call. -/
def matchSingleMessage (env : Env) (incomingContent patternContent : String)
    (matcher : MatcherKind) (threshold : Option ℚ) : Bool × List String :=
  match matcher with
  | .exact =>
      (strTrim incomingContent == strTrim patternContent, [])
  | .fuzzy =>
      match env.fuseSearch patternContent incomingContent with
      | [] => (false, [])
      | r :: _ =>
          -- `const score = result[0].score || 0` (absent score → 0; 0 → 0)
          let score : ℚ := r.getD 0
          let similarity : ℚ := 1 - score
          -- `return similarity >= (threshold || 0.8)`
          (decide (similarity ≥ numOrDefault threshold 0.8), [])
  | .regex =>
      match env.regexCompile patternContent with
      | some test => (test incomingContent, [])
      | none => (false, [warnInvalidRegex patternContent])
  | .contains =>
      (strIncludes (strToLower incomingContent) (strToLower patternContent), [])
  | .any =>
      -- the `default` branch of the source `switch` ('any' never reaches here
      -- in `isMatch`, which handles it before calling `matchSingleMessage`)
      (false, [])

/-- Outcome of one position of the lockstep walk in `isMatch`
(`src/matcher.ts` lines 57–106):
`fail` aborts the candidate (carrying any warnings logged at that position),
`skip` accepts an assistant turn without scoring, `scored w` accepts the
position and contributes weight `w` to the running score. -/
inductive PosOutcome where
  | fail (warnings : List String)
  | skip
  | scored (weight : ℚ)
deriving DecidableEq, Repr

/-- The body of the `for` loop of `isMatch` for one position, factored out as a
pure function of the incoming message and the flow turn at that position. -/
def evalPosition (env : Env) (incomingMessage : IncomingMessage)
    (flowMessage : ConversationMessage) : PosOutcome :=
  -- `if (incomingMessage.role !== flowMessage.role) return fail`
  if incomingMessage.role ≠ flowMessage.role then .fail []
  -- `if (flowMessage.role === 'assistant') { matchedLength++; continue; }`
  else if flowMessage.role = .assistant then .skip
  else
    -- `const matcher = flowMessage.matcher || 'exact'`
    let matcher := flowMessage.matcher.getD .exact
    -- `'any' accepts any message of the correct role`
    if matcher = .any then .scored (MATCHER_SCORES .any)
    -- `if (!incomingMessage.content || !flowMessage.content)`
    else if !strTruthy incomingMessage.content || !strTruthy flowMessage.content then
      -- tool_call_id fallback for tool messages
      if flowMessage.role = .tool ∧ strTruthy incomingMessage.tool_call_id ∧
          strTruthy flowMessage.tool_call_id then
        if incomingMessage.tool_call_id = flowMessage.tool_call_id then
          .scored (MATCHER_SCORES .exact)
        else .fail []
      else .fail []
    else
      match matchSingleMessage env (incomingMessage.content.getD "")
          (flowMessage.content.getD "") matcher flowMessage.threshold with
      | (true, _) => .scored (MATCHER_SCORES matcher)
      | (false, ws) => .fail ws

/-- The record returned by `isMatch` (`src/matcher.ts` line 46). -/
structure MatchResult where
  isMatch : Bool
  matchedLength : Nat
  score : ℚ
deriving DecidableEq, Repr

/-- The `for` loop of `isMatch` with its three accumulators
(`matchedLength`, `totalScore`, `matchedMessages`), followed by the final
average-score computation.  The `_ :: _, []` case is unreachable from
`isMatch` (the length guard rules it out) and is totalized as a failure. -/
def isMatchLoop (env : Env) : List IncomingMessage → List ConversationMessage →
    Nat → ℚ → Nat → MatchResult × List String
  | [], _, matchedLength, totalScore, matchedMessages =>
      (⟨true, matchedLength,
        if matchedMessages > 0 then totalScore / (matchedMessages : ℚ) else 0⟩, [])
  | _ :: _, [], _, _, _ => (⟨false, 0, 0⟩, [])
  | m :: ms, f :: fs, matchedLength, totalScore, matchedMessages =>
      match evalPosition env m f with
      | .fail ws => (⟨false, 0, 0⟩, ws)
      | .skip => isMatchLoop env ms fs (matchedLength + 1) totalScore matchedMessages
      | .scored w =>
          isMatchLoop env ms fs (matchedLength + 1) (totalScore + w) (matchedMessages + 1)

/-- `isMatch` from `src/matcher.ts` lines 46–111, with the warnings logged
during the call as second component. -/
def isMatch (env : Env) (messages : List IncomingMessage)
    (conversationFlow : List ConversationMessage) : MatchResult × List String :=
  if messages.length > conversationFlow.length then (⟨false, 0, 0⟩, [])
  else isMatchLoop env messages conversationFlow 0 0 0

/-- The result part of `isMatch`, with the warning log projected away. -/
def isMatchR (env : Env) (messages : List IncomingMessage)
    (conversationFlow : List ConversationMessage) : MatchResult :=
  (isMatch env messages conversationFlow).1

/-- The `for (const response of responses)` loop of `findMatch`
(`src/matcher.ts` lines 25–35), carrying the running `bestMatch`. -/
def findMatchLoop (env : Env) (messages : List IncomingMessage) :
    List MockResponse → Option (MockResponse × Nat × ℚ) → Option (MockResponse × Nat × ℚ)
  | [], best => best
  | r :: rs, best =>
      let matchResult := isMatchR env messages r.messages
      if matchResult.isMatch then
        match best with
        | none =>
            findMatchLoop env messages rs
              (some (r, matchResult.matchedLength, matchResult.score))
        | some b =>
            -- `if (!bestMatch || matchResult.score > bestMatch.score)`
            if matchResult.score > b.2.2 then
              findMatchLoop env messages rs
                (some (r, matchResult.matchedLength, matchResult.score))
            else findMatchLoop env messages rs (some b)
      else findMatchLoop env messages rs best

/-- `findMatch` from `src/matcher.ts` lines 17–44: returns the winning
response and its `matchedLength`, or `none` when no response matches. -/
def findMatch (env : Env) (request : ChatCompletionRequest)
    (responses : List MockResponse) : Option (MockResponse × Nat) :=
  match findMatchLoop env request.messages responses none with
  | some (r, matchedLength, _) => some (r, matchedLength)
  | none => none

/-- The backward scan of `findResponseForMatch` (`src/matcher.ts` lines
156–161): the result of scanning `conversationFlow` from its last element
towards its first and returning the first turn whose role is `assistant`. -/
def lastAssistantFrom : List ConversationMessage → Option ConversationMessage
  | [] => none
  | m :: ms =>
      match lastAssistantFrom ms with
      | some r => some r
      | none => if m.role = .assistant then some m else none

/-- `findResponseForMatch` from `src/matcher.ts` lines 154–163.  The
`matchedLength` parameter is accepted and ignored, exactly as in the source. -/
def findResponseForMatch (conversationFlow : List ConversationMessage)
    (matchedLength : Nat) : Option ConversationMessage :=
  lastAssistantFrom conversationFlow

/-- Whether one position of the walk passes (does not abort the candidate). -/
def positionPasses (env : Env) (m : IncomingMessage) (f : ConversationMessage) : Bool :=
  match evalPosition env m f with
  | .fail _ => false
  | _ => true

/-- The weight one position of the walk contributes to the running score:
`none` for an unscored (assistant) or failing position. -/
def positionWeight (env : Env) (m : IncomingMessage) (f : ConversationMessage) : Option ℚ :=
  match evalPosition env m f with
  | .scored w => some w
  | _ => none

/-- Arithmetic mean of a list of rationals, `0` for the empty list — the
shape of the final score computation of `isMatch`. -/
def avgQ (l : List ℚ) : ℚ :=
  if l.length > 0 then l.sum / (l.length : ℚ) else 0

/-- The fuzzy rule as the spec words it: similarity is `1 −` the distance of
the first result of the token-similarity search whose corpus is the single
pattern, and the position matches iff similarity is at least the turn's
threshold, `0.8` when the threshold is *omitted*. -/
def fuzzyMatchSpec (env : Env) (incomingContent patternContent : String)
    (threshold : Option ℚ) : Bool :=
  match env.fuseSearch patternContent incomingContent with
  | [] => false
  | r :: _ => decide ((1 - r.getD 0) ≥ threshold.getD 0.8)

/-- A concrete environment for witnesses: no pattern compiles, every fuzzy
search is empty. -/
def envW : Env := ⟨fun _ => none, fun _ _ => []⟩

/-- A concrete environment whose fuzzy search always returns one result of
distance `1/2`. -/
def envF : Env := ⟨fun _ => none, fun _ _ => [some (1/2)]⟩

/-- Incoming user message with the given content. -/
def userMsg (s : String) : IncomingMessage := ⟨.user, some s, none, none⟩

/-- Flow turn: user role, given content, given matcher. -/
def userTurn (s : String) (k : Option MatcherKind) : ConversationMessage :=
  ⟨.user, some s, k, none, none, none⟩

/-- Flow turn: assistant role with the given content. -/
def assistantTurn (s : String) : ConversationMessage :=
  ⟨.assistant, some s, none, none, none, none⟩

/-- The flow of the spec's partial-match finality scenario. -/
def flowPartial : List ConversationMessage :=
  [userTurn "start" (some .exact), assistantTurn "A",
    userTurn "continue" (some .exact), assistantTurn "B"]

/-- Incoming messages for a two-position score computation. -/
def msgs2 : List IncomingMessage := [userMsg "Hello", userMsg "See the weather now"]

/-- A flow scoring one `exact` and one `contains` position. -/
def flow2 : List ConversationMessage :=
  [userTurn "Hello" none, userTurn "weather" (some .contains), assistantTurn "ok"]

/-- The spec's concrete scenario 1, flow A: exact `"Hello"` then `"Hi"`. -/
def flowA : MockResponse := ⟨"flow-a", [userTurn "Hello" none, assistantTurn "Hi"]⟩

/-- A catch-all user turn: matcher `any`, no content. -/
def userTurnAny : ConversationMessage := ⟨.user, none, some .any, none, none, none⟩

/-- The spec's concrete scenario 1, flow B: catch-all then `"Catch-all"`. -/
def flowB : MockResponse := ⟨"flow-b", [userTurnAny, assistantTurn "Catch-all"]⟩

/-- Incoming tool message carrying only a `tool_call_id`. -/
def toolMsg : IncomingMessage := ⟨.tool, none, none, some "call1"⟩

/-- Flow tool turn carrying only a `tool_call_id`. -/
def toolTurn : ConversationMessage := ⟨.tool, none, none, none, none, some "call1"⟩

/-- Two-turn flow whose second turn uses the `any` matcher. -/
def flowX1 : MockResponse :=
  ⟨"flow-x1", [userTurn "x" (some .exact), userTurn "y" (some .any)]⟩

/-- Two-turn flow identical to `flowX1` except for an `exact` matcher at
position 1. -/
def flowX2 : MockResponse :=
  ⟨"flow-x2", [userTurn "x" (some .exact), userTurn "y" (some .exact)]⟩

/-- User turn `"Hello"` with the `exact` matcher. -/
def turnHelloExact : ConversationMessage := userTurn "Hello" (some .exact)

/-- User turn `"Hello"` with the `contains` matcher. -/
def turnHelloContains : ConversationMessage := userTurn "Hello" (some .contains)

/-! ### Basic facts about one position of the walk -/

theorem evalPosition_role_ne (env : Env) (m : IncomingMessage) (f : ConversationMessage)
    (h : m.role ≠ f.role) : evalPosition env m f = .fail [] := by
  simp [evalPosition, h]

theorem evalPosition_assistant (env : Env) (m : IncomingMessage) (f : ConversationMessage)
    (hr : m.role = f.role) (h : f.role = .assistant) : evalPosition env m f = .skip := by
  simp [evalPosition, hr, h]

theorem evalPosition_not_skip (env : Env) (m : IncomingMessage) (f : ConversationMessage)
    (h : f.role ≠ .assistant) : evalPosition env m f ≠ .skip := by
  unfold evalPosition
  by_cases hr : m.role = f.role
  · simp only [hr, ne_eq, not_true_eq_false, if_false, h, if_true]
    split_ifs <;> try simp
    rcases hm : matchSingleMessage env (m.content.getD "") (f.content.getD "")
        (f.matcher.getD .exact) f.threshold with ⟨b, ws⟩
    cases b <;> simp
  · simp [hr]

theorem evalPosition_skip_assistant (env : Env) (m : IncomingMessage)
    (f : ConversationMessage) (h : evalPosition env m f = .skip) : f.role = .assistant := by
  by_contra hne
  exact evalPosition_not_skip env m f hne h

theorem evalPosition_scored_roles (env : Env) (m : IncomingMessage)
    (f : ConversationMessage) (w : ℚ) (h : evalPosition env m f = .scored w) :
    m.role = f.role ∧ f.role ≠ .assistant := by
  by_cases hr : m.role = f.role
  · refine ⟨hr, fun ha => ?_⟩
    rw [evalPosition_assistant env m f hr ha] at h
    exact PosOutcome.noConfusion h
  · rw [evalPosition_role_ne env m f hr] at h
    exact PosOutcome.noConfusion h

theorem positionPasses_role (env : Env) (m : IncomingMessage) (f : ConversationMessage)
    (h : positionPasses env m f = true) : m.role = f.role := by
  by_contra hr
  rw [positionPasses, evalPosition_role_ne env m f hr] at h
  simp at h

theorem positionWeight_isSome (env : Env) (m : IncomingMessage) (f : ConversationMessage) :
    (positionWeight env m f).isSome =
      (positionPasses env m f && !(f.role == Role.assistant)) := by
  rw [positionWeight, positionPasses]
  rcases h : evalPosition env m f with ws | _ | w
  · simp
  · simp [evalPosition_skip_assistant env m f h]
  · have := (evalPosition_scored_roles env m f w h).2
    simp [this]

/-! ### Characterization of the `isMatch` walk -/

/-- The final score of the walk, as a function of the accumulators and the
weights still to be collected. -/
def scoreAcc (ts : ℚ) (mm : Nat) (ws : List ℚ) : ℚ :=
  if mm + ws.length > 0 then (ts + ws.sum) / ((mm + ws.length : Nat) : ℚ) else 0

theorem scoreAcc_cons (ts w : ℚ) (mm : Nat) (ws : List ℚ) :
    scoreAcc (ts + w) (mm + 1) ws = scoreAcc ts mm (w :: ws) := by
  simp only [scoreAcc, List.length_cons, List.sum_cons]
  rw [if_pos (by omega), if_pos (by omega)]
  have h1 : ts + w + ws.sum = ts + (w + ws.sum) := by ring
  have h2 : mm + 1 + ws.length = mm + (ws.length + 1) := by omega
  rw [h1, h2]

theorem scoreAcc_zero (ws : List ℚ) : scoreAcc 0 0 ws = avgQ ws := by
  simp [scoreAcc, avgQ]

theorem isMatchLoop_all_pass (env : Env) :
    ∀ (ms : List IncomingMessage) (fs : List ConversationMessage)
      (ml : Nat) (ts : ℚ) (mm : Nat),
      ms.length ≤ fs.length →
      (∀ p ∈ ms.zip fs, positionPasses env p.1 p.2 = true) →
      isMatchLoop env ms fs ml ts mm =
        (⟨true, ml + ms.length,
          scoreAcc ts mm ((ms.zip fs).filterMap fun p => positionWeight env p.1 p.2)⟩, [])
  | [], fs, ml, ts, mm, _, _ => by
      simp [isMatchLoop, scoreAcc]
  | m :: ms, [], ml, ts, mm, hlen, _ => by
      simp at hlen
  | m :: ms, f :: fs, ml, ts, mm, hlen, hpass => by
      have hhead : positionPasses env m f = true := hpass (m, f) (by simp)
      have htail : ∀ p ∈ ms.zip fs, positionPasses env p.1 p.2 = true := by
        intro p hp
        exact hpass p (by simp [hp])
      have hlen' : ms.length ≤ fs.length := by simpa using Nat.le_of_succ_le_succ hlen
      rcases h : evalPosition env m f with ws | _ | w
      · rw [positionPasses, h] at hhead
        simp at hhead
      · rw [isMatchLoop, h]
        rw [isMatchLoop_all_pass env ms fs (ml + 1) ts mm hlen' htail]
        have hw : positionWeight env m f = none := by rw [positionWeight, h]
        simp only [List.zip_cons_cons, List.filterMap_cons, hw, List.length_cons]
        have hml : ml + 1 + ms.length = ml + (ms.length + 1) := by omega
        rw [hml]
      · rw [isMatchLoop, h]
        show isMatchLoop env ms fs (ml + 1) (ts + w) (mm + 1) = _
        rw [isMatchLoop_all_pass env ms fs (ml + 1) (ts + w) (mm + 1) hlen' htail]
        have hw : positionWeight env m f = some w := by rw [positionWeight, h]
        simp only [List.zip_cons_cons, List.filterMap_cons, hw, List.length_cons,
          scoreAcc_cons]
        have hml : ml + 1 + ms.length = ml + (ms.length + 1) := by omega
        rw [hml]

theorem isMatchLoop_fail (env : Env) :
    ∀ (ms : List IncomingMessage) (fs : List ConversationMessage)
      (ml : Nat) (ts : ℚ) (mm : Nat),
      (∃ p ∈ ms.zip fs, positionPasses env p.1 p.2 = false) →
      (isMatchLoop env ms fs ml ts mm).1 = ⟨false, 0, 0⟩
  | [], fs, ml, ts, mm, hex => by
      simp at hex
  | m :: ms, [], ml, ts, mm, hex => by
      simp [isMatchLoop]
  | m :: ms, f :: fs, ml, ts, mm, hex => by
      rcases h : evalPosition env m f with ws | _ | w
      · rw [isMatchLoop, h]
      · rw [isMatchLoop, h]
        apply isMatchLoop_fail env ms fs (ml + 1) ts mm
        rcases hex with ⟨p, hp, hfail⟩
        rw [List.zip_cons_cons, List.mem_cons] at hp
        rcases hp with rfl | hp
        · rw [positionPasses, h] at hfail
          simp at hfail
        · exact ⟨p, hp, hfail⟩
      · rw [isMatchLoop, h]
        apply isMatchLoop_fail env ms fs (ml + 1) (ts + w) (mm + 1)
        rcases hex with ⟨p, hp, hfail⟩
        rw [List.zip_cons_cons, List.mem_cons] at hp
        rcases hp with rfl | hp
        · rw [positionPasses, h] at hfail
          simp at hfail
        · exact ⟨p, hp, hfail⟩

/-- Backbone characterization of `isMatch`: success is equivalent to the
length bound plus every walked position passing, and on success the record
is fully determined by the per-position weights. -/
theorem isMatchR_spec (env : Env) (msgs : List IncomingMessage)
    (flow : List ConversationMessage) :
    ((isMatchR env msgs flow).isMatch = true ↔
      msgs.length ≤ flow.length ∧
        ∀ p ∈ msgs.zip flow, positionPasses env p.1 p.2 = true) ∧
    ((isMatchR env msgs flow).isMatch = true →
      isMatchR env msgs flow =
        ⟨true, msgs.length,
          avgQ ((msgs.zip flow).filterMap fun p => positionWeight env p.1 p.2)⟩) := by
  by_cases hlen : msgs.length > flow.length
  · have hres : isMatchR env msgs flow = ⟨false, 0, 0⟩ := by
      rw [isMatchR, isMatch, if_pos hlen]
    rw [hres]
    constructor
    · apply iff_of_false (by simp)
      intro hcon
      have := hcon.1
      omega
    · intro hmi
      simp at hmi
  · have hlen' : msgs.length ≤ flow.length := by omega
    have hbase : isMatchR env msgs flow = (isMatchLoop env msgs flow 0 0 0).1 := by
      rw [isMatchR, isMatch, if_neg hlen]
    by_cases hall : ∀ p ∈ msgs.zip flow, positionPasses env p.1 p.2 = true
    · have hres : isMatchR env msgs flow =
          ⟨true, msgs.length,
            avgQ ((msgs.zip flow).filterMap fun p => positionWeight env p.1 p.2)⟩ := by
        rw [hbase, isMatchLoop_all_pass env msgs flow 0 0 0 hlen' hall]
        simp [scoreAcc_zero]
      rw [hres]
      exact ⟨iff_of_true rfl ⟨hlen', hall⟩, fun _ => rfl⟩
    · have hex : ∃ p ∈ msgs.zip flow, positionPasses env p.1 p.2 = false := by
        by_contra hno
        push_neg at hno
        apply hall
        intro p hp
        have := hno p hp
        simpa using this
      have hres : isMatchR env msgs flow = ⟨false, 0, 0⟩ := by
        rw [hbase]
        exact isMatchLoop_fail env msgs flow 0 0 0 hex
      rw [hres]
      constructor
      · apply iff_of_false (by simp)
        intro hcon
        exact hall hcon.2
      · intro hmi
        simp at hmi

/-! ### Characterization of the selector loop -/

/-- Whether a configured flow matches the incoming messages. -/
def respMatches (env : Env) (msgs : List IncomingMessage) (r : MockResponse) : Bool :=
  (isMatchR env msgs r.messages).isMatch

/-- The score a configured flow obtains against the incoming messages. -/
def respScore (env : Env) (msgs : List IncomingMessage) (r : MockResponse) : ℚ :=
  (isMatchR env msgs r.messages).score

theorem findMatchLoop_some (env : Env) (msgs : List IncomingMessage) :
    ∀ (rest : List MockResponse) (b : MockResponse) (bml : Nat) (bs : ℚ),
      ∃ res : MockResponse × Nat × ℚ,
        findMatchLoop env msgs rest (some (b, bml, bs)) = some res ∧
        ((res = (b, bml, bs) ∧
            ∀ x ∈ rest, respMatches env msgs x = true → respScore env msgs x ≤ bs) ∨
          (∃ pre r post, rest = pre ++ r :: post ∧
            respMatches env msgs r = true ∧
            res = (r, (isMatchR env msgs r.messages).matchedLength, respScore env msgs r) ∧
            bs < respScore env msgs r ∧
            (∀ x ∈ pre, respMatches env msgs x = true →
              respScore env msgs x < respScore env msgs r) ∧
            (∀ x ∈ rest, respMatches env msgs x = true →
              respScore env msgs x ≤ respScore env msgs r)))
  | [], b, bml, bs => by
      refine ⟨(b, bml, bs), rfl, Or.inl ⟨rfl, ?_⟩⟩
      intro x hx
      simp at hx
  | x :: xs, b, bml, bs => by
      by_cases hm : (isMatchR env msgs x.messages).isMatch = true
      · by_cases hgt : (isMatchR env msgs x.messages).score > bs
        · have hstep : findMatchLoop env msgs (x :: xs) (some (b, bml, bs)) =
              findMatchLoop env msgs xs
                (some (x, (isMatchR env msgs x.messages).matchedLength,
                  (isMatchR env msgs x.messages).score)) := by
            simp [findMatchLoop, hm, hgt]
          rcases findMatchLoop_some env msgs xs x
              (isMatchR env msgs x.messages).matchedLength
              (isMatchR env msgs x.messages).score with ⟨res, hres, hdisj⟩
          refine ⟨res, by rw [hstep, hres], Or.inr ?_⟩
          rcases hdisj with ⟨hreseq, hle⟩ | ⟨pre, r, post, hxs, hrm, hreseq, hlt, hpre, hall⟩
          · refine ⟨[], x, xs, by simp, hm, by simpa [respScore] using hreseq, hgt, ?_, ?_⟩
            · intro y hy
              simp at hy
            · intro y hy
              rw [List.mem_cons] at hy
              rcases hy with rfl | hy
              · intro
                exact le_refl _
              · exact hle y hy
          · refine ⟨x :: pre, r, post, by simp [hxs], hrm, hreseq, lt_trans hgt hlt, ?_, ?_⟩
            · intro y hy
              rw [List.mem_cons] at hy
              rcases hy with rfl | hy
              · intro
                exact hlt
              · exact hpre y hy
            · intro y hy
              rw [List.mem_cons] at hy
              rcases hy with rfl | hy
              · intro
                exact le_of_lt hlt
              · exact hall y hy
        · have hstep : findMatchLoop env msgs (x :: xs) (some (b, bml, bs)) =
              findMatchLoop env msgs xs (some (b, bml, bs)) := by
            simp [findMatchLoop, hm, hgt]
          rcases findMatchLoop_some env msgs xs b bml bs with ⟨res, hres, hdisj⟩
          refine ⟨res, by rw [hstep, hres], ?_⟩
          have hxle : respScore env msgs x ≤ bs := by
            rw [respScore]
            exact le_of_not_lt hgt
          rcases hdisj with ⟨hreseq, hle⟩ | ⟨pre, r, post, hxs, hrm, hreseq, hlt, hpre, hall⟩
          · refine Or.inl ⟨hreseq, ?_⟩
            intro y hy
            rw [List.mem_cons] at hy
            rcases hy with rfl | hy
            · intro
              exact hxle
            · exact hle y hy
          · refine Or.inr ⟨x :: pre, r, post, by simp [hxs], hrm, hreseq, hlt, ?_, ?_⟩
            · intro y hy
              rw [List.mem_cons] at hy
              rcases hy with rfl | hy
              · intro
                exact lt_of_le_of_lt hxle hlt
              · exact hpre y hy
            · intro y hy
              rw [List.mem_cons] at hy
              rcases hy with rfl | hy
              · intro
                exact le_of_lt (lt_of_le_of_lt hxle hlt)
              · exact hall y hy
      · have hstep : findMatchLoop env msgs (x :: xs) (some (b, bml, bs)) =
            findMatchLoop env msgs xs (some (b, bml, bs)) := by
          simp [findMatchLoop, hm]
        rcases findMatchLoop_some env msgs xs b bml bs with ⟨res, hres, hdisj⟩
        refine ⟨res, by rw [hstep, hres], ?_⟩
        have hxm : respMatches env msgs x = false := by
          rw [respMatches]
          simpa using hm
        rcases hdisj with ⟨hreseq, hle⟩ | ⟨pre, r, post, hxs, hrm, hreseq, hlt, hpre, hall⟩
        · refine Or.inl ⟨hreseq, ?_⟩
          intro y hy
          rw [List.mem_cons] at hy
          rcases hy with rfl | hy
          · intro hym
            rw [hxm] at hym
            exact absurd hym (by simp)
          · exact hle y hy
        · refine Or.inr ⟨x :: pre, r, post, by simp [hxs], hrm, hreseq, hlt, ?_, ?_⟩
          · intro y hy
            rw [List.mem_cons] at hy
            rcases hy with rfl | hy
            · intro hym
              rw [hxm] at hym
              exact absurd hym (by simp)
            · exact hpre y hy
          · intro y hy
            rw [List.mem_cons] at hy
            rcases hy with rfl | hy
            · intro hym
              rw [hxm] at hym
              exact absurd hym (by simp)
            · exact hall y hy

theorem findMatchLoop_none (env : Env) (msgs : List IncomingMessage) :
    ∀ rest : List MockResponse,
      (findMatchLoop env msgs rest none = none ∧
        ∀ x ∈ rest, respMatches env msgs x = false) ∨
      (∃ pre r post, rest = pre ++ r :: post ∧
        (∀ x ∈ pre, respMatches env msgs x = false) ∧
        respMatches env msgs r = true ∧
        findMatchLoop env msgs rest none =
          findMatchLoop env msgs post
            (some (r, (isMatchR env msgs r.messages).matchedLength,
              (isMatchR env msgs r.messages).score)))
  | [] => by
      refine Or.inl ⟨rfl, ?_⟩
      intro x hx
      simp at hx
  | x :: xs => by
      by_cases hm : (isMatchR env msgs x.messages).isMatch = true
      · refine Or.inr ⟨[], x, xs, by simp, ?_, by rw [respMatches]; exact hm, ?_⟩
        · intro y hy
          simp at hy
        · simp [findMatchLoop, hm]
      · have hstep : findMatchLoop env msgs (x :: xs) none =
            findMatchLoop env msgs xs none := by
          simp [findMatchLoop, hm]
        have hxm : respMatches env msgs x = false := by
          rw [respMatches]
          simpa using hm
        rcases findMatchLoop_none env msgs xs with ⟨hnone, hall⟩ |
            ⟨pre, r, post, hxs, hpre, hrm, heq⟩
        · refine Or.inl ⟨by rw [hstep, hnone], ?_⟩
          intro y hy
          rw [List.mem_cons] at hy
          rcases hy with rfl | hy
          · exact hxm
          · exact hall y hy
        · refine Or.inr ⟨x :: pre, r, post, by simp [hxs], ?_, hrm, by rw [hstep, heq]⟩
          intro y hy
          rw [List.mem_cons] at hy
          rcases hy with rfl | hy
          · exact hxm
          · exact hpre y hy

/-- Backbone characterization of `findMatch`: `none` exactly when no flow
matches; otherwise the winner is a matching flow whose score strictly
dominates every matching flow declared before it and weakly dominates every
matching flow overall. -/
theorem findMatch_spec (env : Env) (req : ChatCompletionRequest)
    (responses : List MockResponse) :
    (findMatch env req responses = none ↔
      ∀ x ∈ responses, respMatches env req.messages x = false) ∧
    (∀ r ml, findMatch env req responses = some (r, ml) →
      ∃ pre post, responses = pre ++ r :: post ∧
        respMatches env req.messages r = true ∧
        ml = (isMatchR env req.messages r.messages).matchedLength ∧
        (∀ x ∈ pre, respMatches env req.messages x = true →
          respScore env req.messages x < respScore env req.messages r) ∧
        (∀ x ∈ responses, respMatches env req.messages x = true →
          respScore env req.messages x ≤ respScore env req.messages r)) := by
  rcases findMatchLoop_none env req.messages responses with ⟨hnone, hall⟩ |
      ⟨pre, r0, post, heq, hprefail, hr0, hloopeq⟩
  · have hfm : findMatch env req responses = none := by
      rw [findMatch, hnone]
    constructor
    · exact iff_of_true hfm hall
    · intro r ml hsome
      rw [hfm] at hsome
      exact absurd hsome (by simp)
  · rcases findMatchLoop_some env req.messages post r0
        (isMatchR env req.messages r0.messages).matchedLength
        (isMatchR env req.messages r0.messages).score with ⟨res, hres, hdisj⟩
    have hloop : findMatchLoop env req.messages responses none = some res := by
      rw [hloopeq, hres]
    have hfm : findMatch env req responses = some (res.1, res.2.1) := by
      rw [findMatch, hloop]
    constructor
    · apply iff_of_false (by rw [hfm]; simp)
      intro hcon
      have := hcon r0 (by rw [heq]; simp)
      rw [hr0] at this
      exact absurd this (by simp)
    · intro r ml hsome
      rw [hfm] at hsome
      have hr : res.1 = r := by
        have := congrArg (fun o => o.map Prod.fst) hsome
        simpa using this
      have hml : res.2.1 = ml := by
        have := congrArg (fun o => o.map (fun p => p.2)) hsome
        simpa using this
      rcases hdisj with ⟨hreseq, hle⟩ | ⟨pre2, r', post2, hpost, hrm, hreseq, hlt, hpre2, hall2⟩
      · -- the first matching flow `r0` survived the rest of the scan
        have hr0r : r0 = r := by
          rw [hreseq] at hr
          simpa using hr
        have hml0 : ml = (isMatchR env req.messages r0.messages).matchedLength := by
          rw [hreseq] at hml
          simpa using hml.symm
        subst hr0r
        refine ⟨pre, post, heq, hr0, hml0, ?_, ?_⟩
        · intro x hx hxm
          rw [hprefail x hx] at hxm
          exact absurd hxm (by simp)
        · intro x hx
          rw [heq, List.mem_append, List.mem_cons] at hx
          rcases hx with hx | hx | hx
          · intro hxm
            rw [hprefail x hx] at hxm
            exact absurd hxm (by simp)
          · subst hx
            intro
            exact le_refl _
          · exact hle x hx
      · -- a later flow `r'` strictly overtook `r0`
        have hr'r : r' = r := by
          rw [hreseq] at hr
          simpa using hr
        have hml' : ml = (isMatchR env req.messages r'.messages).matchedLength := by
          rw [hreseq] at hml
          simpa using hml.symm
        subst hr'r
        have hresp : responses = (pre ++ r0 :: pre2) ++ r' :: post2 := by
          rw [heq, hpost]
          simp
        refine ⟨pre ++ r0 :: pre2, post2, hresp, hrm, hml', ?_, ?_⟩
        · intro x hx
          rw [List.mem_append, List.mem_cons] at hx
          rcases hx with hx | hx | hx
          · intro hxm
            rw [hprefail x hx] at hxm
            exact absurd hxm (by simp)
          · subst hx
            intro
            exact hlt
          · exact hpre2 x hx
        · intro x hx
          rw [heq, List.mem_append, List.mem_cons] at hx
          rcases hx with hx | hx | hx
          · intro hxm
            rw [hprefail x hx] at hxm
            exact absurd hxm (by simp)
          · subst hx
            intro
            exact le_of_lt hlt
          · exact hall2 x hx

/-! ### The backward scan of `findResponseForMatch` -/

theorem lastAssistantFrom_eq_find_reverse (l : List ConversationMessage) :
    lastAssistantFrom l = l.reverse.find? fun t => t.role == Role.assistant := by
  induction l with
  | nil => rfl
  | cons m ms ih =>
    rw [lastAssistantFrom, ih, List.reverse_cons, List.find?_append]
    cases h : ms.reverse.find? fun t => t.role == Role.assistant with
    | some r => simp
    | none =>
      have hsing : List.find? (fun t => t.role == Role.assistant) [m] =
          if m.role = Role.assistant then some m else none := by
        by_cases hm : m.role = Role.assistant
        · rw [List.find?_cons_of_pos _ (by simpa using hm), if_pos hm]
        · rw [List.find?_cons_of_neg _ (by simpa using hm), if_neg hm]
          rfl
      simp [hsing]

theorem find?_eq_head?_filter {α : Type} (p : α → Bool) (l : List α) :
    l.find? p = (l.filter p).head? := by
  induction l with
  | nil => rfl
  | cons a l ih =>
    by_cases h : p a = true
    · simp [List.find?, List.filter, h]
    · rw [List.find?_cons_of_neg _ (by simpa using h), List.filter_cons_of_neg (by simpa using h)]
      exact ih

theorem lastAssistantFrom_eq_filter_getLast (l : List ConversationMessage) :
    lastAssistantFrom l = (l.filter fun t => t.role == Role.assistant).getLast? := by
  rw [lastAssistantFrom_eq_find_reverse, find?_eq_head?_filter, List.filter_reverse,
    List.head?_reverse]

/-! ### Failure propagation from one position to the candidate -/

theorem isMatchR_fail_at (env : Env) (msgs : List IncomingMessage)
    (flow : List ConversationMessage) (i : Nat) (h1 : i < msgs.length)
    (h2 : i < flow.length)
    (hfail : positionPasses env (msgs.get ⟨i, h1⟩) (flow.get ⟨i, h2⟩) = false) :
    (isMatchR env msgs flow).isMatch = false := by
  by_contra hmi
  rw [Bool.not_eq_false] at hmi
  have hall := ((isMatchR_spec env msgs flow).1.mp hmi).2
  have hi : i < (msgs.zip flow).length := by
    rw [List.length_zip]
    omega
  have hmem : (msgs.get ⟨i, h1⟩, flow.get ⟨i, h2⟩) ∈ msgs.zip flow := by
    have hz : (msgs.zip flow).get ⟨i, hi⟩ = (msgs.get ⟨i, h1⟩, flow.get ⟨i, h2⟩) := by
      simp [List.get_eq_getElem, List.getElem_zip]
    rw [← hz]
    exact List.get_mem _ _ _
  have := hall _ hmem
  rw [this] at hfail
  exact absurd hfail (by simp)

/-- A position that passes, whose turn is not an assistant turn, with truthy
content on both sides, is scored with the specificity weight of the turn's
matcher (defaulted to `exact`). -/
theorem evalPosition_scored_weight (env : Env) (m : IncomingMessage)
    (f : ConversationMessage) (hpass : positionPasses env m f = true)
    (ha : f.role ≠ .assistant) (hmc : strTruthy m.content = true)
    (hfc : strTruthy f.content = true) :
    evalPosition env m f = .scored (MATCHER_SCORES (f.matcher.getD .exact)) := by
  have hr : m.role = f.role := positionPasses_role env m f hpass
  by_cases hany : f.matcher.getD .exact = .any
  · have hres : evalPosition env m f = .scored (MATCHER_SCORES .any) := by
      simp [evalPosition, hr, ha, hany]
    rw [hres, hany]
  · rcases hms : matchSingleMessage env (m.content.getD "") (f.content.getD "")
        (f.matcher.getD .exact) f.threshold with ⟨b, ws⟩
    cases b
    · exfalso
      have hres : evalPosition env m f = .fail ws := by
        simp [evalPosition, hr, ha, hany, hmc, hfc, hms]
      rw [positionPasses, hres] at hpass
      simp at hpass
    · simp [evalPosition, hr, ha, hany, hmc, hfc, hms]

/-! ### Arithmetic of the average score -/

theorem avgQ_lt (wA wB : ℚ) (w1 w2 : List ℚ) (h : wB < wA) :
    avgQ (w1 ++ wB :: w2) < avgQ (w1 ++ wA :: w2) := by
  have hlen : (w1 ++ wB :: w2).length = (w1 ++ wA :: w2).length := by simp
  have hpos : 0 < (w1 ++ wA :: w2).length := by simp
  rw [avgQ, avgQ, if_pos (by simp), if_pos hpos, hlen]
  have hc : (0 : ℚ) < ((w1 ++ wA :: w2).length : ℚ) := by
    exact_mod_cast hpos
  rw [div_lt_div_iff_of_pos_right hc]
  simp only [List.sum_append, List.sum_cons]
  linarith

theorem findMatch_two (env : Env) (req : ChatCompletionRequest) (A B : MockResponse)
    (hA : (isMatchR env req.messages A.messages).isMatch = true)
    (hB : (isMatchR env req.messages B.messages).isMatch = true)
    (hs : (isMatchR env req.messages B.messages).score <
      (isMatchR env req.messages A.messages).score) :
    findMatch env req [A, B] = some (A, (isMatchR env req.messages A.messages).matchedLength) ∧
    findMatch env req [B, A] = some (A, (isMatchR env req.messages A.messages).matchedLength) := by
  constructor
  · have h1 : ¬(isMatchR env req.messages B.messages).score >
        (isMatchR env req.messages A.messages).score := not_lt.mpr (le_of_lt hs)
    simp [findMatch, findMatchLoop, hA, hB, h1]
  · simp [findMatch, findMatchLoop, hA, hB, hs]

/-! ## Claims -/

/-- **C1**: for every winning flow and every `matchedLength`,
`findResponseForMatch` returns the last turn in the whole flow whose role is
`assistant`, independently of `matchedLength`, and returns `none` exactly when
the flow contains no assistant turn. -/
theorem C1_extractReply_last_assistant (flow : List ConversationMessage)
    (matchedLength matchedLength' : Nat) :
    findResponseForMatch flow matchedLength = findResponseForMatch flow matchedLength' ∧
    findResponseForMatch flow matchedLength =
      (flow.filter fun t => t.role == Role.assistant).getLast? ∧
    (findResponseForMatch flow matchedLength = none ↔
      ∀ t ∈ flow, t.role ≠ Role.assistant) := by
  refine ⟨rfl, ?_, ?_⟩
  · rw [findResponseForMatch, lastAssistantFrom_eq_filter_getLast]
  · rw [findResponseForMatch, lastAssistantFrom_eq_find_reverse, List.find?_eq_none]
    constructor
    · intro hnone t ht
      have := hnone t (by rwa [List.mem_reverse])
      simpa using this
    · intro hforall t ht
      have := hforall t (by rwa [List.mem_reverse] at ht)
      simpa using this

/-- Witness for C1: the spec's partial-match finality flow resolves to
assistant turn `"B"`, not `"A"`, at `matchedLength = 1`. -/
theorem C1_extractReply_last_assistant_w :
    findResponseForMatch flowPartial 1 = some (assistantTurn "B") := by
  rw [(C1_extractReply_last_assistant flowPartial 1 0).2.1]
  rfl

/-- **C2**: a flow is a match iff the length bound holds and every walked
position passes; scored positions are exactly the passing non-assistant
positions; on a match, `matchedLength` is the incoming length and the score
is the arithmetic mean of the collected weights (`0` when none was
collected), with the fixed weight table exact=1, regex=0.8, contains=0.6,
fuzzy=0.4, any=0.1. -/
theorem C2_match_score_mean (env : Env) (msgs : List IncomingMessage)
    (flow : List ConversationMessage) :
    (MATCHER_SCORES .exact = 1 ∧ MATCHER_SCORES .regex = 0.8 ∧
      MATCHER_SCORES .contains = 0.6 ∧ MATCHER_SCORES .fuzzy = 0.4 ∧
      MATCHER_SCORES .any = 0.1) ∧
    ((isMatchR env msgs flow).isMatch = true ↔
      msgs.length ≤ flow.length ∧
        ∀ p ∈ msgs.zip flow, positionPasses env p.1 p.2 = true) ∧
    (∀ p ∈ msgs.zip flow,
      (positionWeight env p.1 p.2).isSome =
        (positionPasses env p.1 p.2 && !(p.2.role == Role.assistant))) ∧
    ((isMatchR env msgs flow).isMatch = true →
      (isMatchR env msgs flow).matchedLength = msgs.length ∧
      (isMatchR env msgs flow).score =
        avgQ ((msgs.zip flow).filterMap fun p => positionWeight env p.1 p.2)) := by
  refine ⟨⟨rfl, rfl, rfl, rfl, rfl⟩, (isMatchR_spec env msgs flow).1, ?_, ?_⟩
  · intro p _
    exact positionWeight_isSome env p.1 p.2
  · intro h
    rw [(isMatchR_spec env msgs flow).2 h]
    exact ⟨rfl, rfl⟩

/-- Witness for C2: a two-position match (exact + contains) has
`matchedLength = 2` and the mean score of its collected weights. -/
theorem C2_match_score_mean_w :
    (isMatchR envW msgs2 flow2).matchedLength = 2 ∧
    (isMatchR envW msgs2 flow2).score =
      avgQ ((msgs2.zip flow2).filterMap fun p => positionWeight envW p.1 p.2) :=
  (C2_match_score_mean envW msgs2 flow2).2.2.2 (by decide)

/-- **C3**: `findMatch` returns `none` iff no flow matches; otherwise it
returns a matching flow (with its `matchedLength`) whose score strictly
exceeds that of every matching flow declared before it and is at least that
of every matching flow — i.e. the highest-scoring match with ties resolved
in favour of the earliest-declared flow. -/
theorem C3_selectBest_highest_earliest (env : Env) (request : ChatCompletionRequest)
    (responses : List MockResponse) :
    (findMatch env request responses = none ↔
      ∀ x ∈ responses, respMatches env request.messages x = false) ∧
    (∀ r ml, findMatch env request responses = some (r, ml) →
      ∃ pre post, responses = pre ++ r :: post ∧
        respMatches env request.messages r = true ∧
        ml = (isMatchR env request.messages r.messages).matchedLength ∧
        (∀ x ∈ pre, respMatches env request.messages x = true →
          respScore env request.messages x < respScore env request.messages r) ∧
        (∀ x ∈ responses, respMatches env request.messages x = true →
          respScore env request.messages x ≤ respScore env request.messages r)) :=
  findMatch_spec env request responses

/-- Witness for C3: on the empty incoming list both flows match with score 0
and the selector returns the earliest-declared flow. -/
theorem C3_selectBest_highest_earliest_w :
    ∃ pre post, [flowA, flowB] = pre ++ flowA :: post ∧
      respMatches envW [] flowA = true ∧
      0 = (isMatchR envW [] flowA.messages).matchedLength ∧
      (∀ x ∈ pre, respMatches envW [] x = true →
        respScore envW [] x < respScore envW [] flowA) ∧
      (∀ x ∈ [flowA, flowB], respMatches envW [] x = true →
        respScore envW [] x ≤ respScore envW [] flowA) :=
  (C3_selectBest_highest_earliest envW ⟨"m", []⟩ [flowA, flowB]).2
    flowA 0 (by decide)

/-- **C5**: an incoming list strictly longer than the flow fails immediately
with `isMatch = false` and score `0`, regardless of roles and contents. -/
theorem C5_prefix_bound (env : Env) (msgs : List IncomingMessage)
    (flow : List ConversationMessage) (h : msgs.length > flow.length) :
    isMatchR env msgs flow = ⟨false, 0, 0⟩ := by
  rw [isMatchR, isMatch, if_pos h]

/-- Witness for C5. -/
theorem C5_prefix_bound_w :
    isMatchR envW [userMsg "a", userMsg "b"] [userTurn "a" none] = ⟨false, 0, 0⟩ :=
  C5_prefix_bound envW [userMsg "a", userMsg "b"] [userTurn "a" none] (by decide)

/-- **C6**: a role mismatch at any walked position fails the whole candidate,
whatever the contents are. -/
theorem C6_role_mismatch_fails (env : Env) (msgs : List IncomingMessage)
    (flow : List ConversationMessage) (i : Nat) (h1 : i < msgs.length)
    (h2 : i < flow.length)
    (hne : (msgs.get ⟨i, h1⟩).role ≠ (flow.get ⟨i, h2⟩).role) :
    (isMatchR env msgs flow).isMatch = false := by
  apply isMatchR_fail_at env msgs flow i h1 h2
  rw [positionPasses, evalPosition_role_ne env _ _ hne]

/-- Witness for C6: identical contents, `user` vs `system` role. -/
theorem C6_role_mismatch_fails_w :
    (isMatchR envW [userMsg "hi"]
      [⟨Role.system, some "hi", none, none, none, none⟩]).isMatch = false :=
  C6_role_mismatch_fails envW [userMsg "hi"]
    [⟨Role.system, some "hi", none, none, none, none⟩] 0
    (by decide) (by decide) (by decide)

/-- **C7**: an invalid regex pattern never raises: `matchSingleMessage`
returns `false` together with the logged warning, and the position degrades
to a plain non-match of the walk.  (All embedded functions are total, which
models "matching never throws".) -/
theorem C7_invalid_regex_degrades (env : Env) (m : IncomingMessage)
    (f : ConversationMessage) (hr : m.role = f.role) (ha : f.role ≠ .assistant)
    (hk : f.matcher.getD .exact = .regex)
    (hmc : strTruthy m.content = true) (hfc : strTruthy f.content = true)
    (hbad : env.regexCompile (f.content.getD "") = none) :
    matchSingleMessage env (m.content.getD "") (f.content.getD "") .regex f.threshold =
      (false, [warnInvalidRegex (f.content.getD "")]) ∧
    evalPosition env m f = .fail [warnInvalidRegex (f.content.getD "")] := by
  have h1 : matchSingleMessage env (m.content.getD "") (f.content.getD "")
      .regex f.threshold = (false, [warnInvalidRegex (f.content.getD "")]) := by
    simp [matchSingleMessage, hbad]
  have hany : f.matcher.getD .exact ≠ .any := by
    rw [hk]
    simp
  refine ⟨h1, ?_⟩
  simp [evalPosition, hr, ha, hany, hmc, hfc, hk, h1]

/-- Witness for C7: the pattern `"["` does not compile in `envW`. -/
theorem C7_invalid_regex_degrades_w :
    matchSingleMessage envW "abc" "[" .regex none = (false, [warnInvalidRegex "["]) ∧
    evalPosition envW (userMsg "abc") (userTurn "[" (some .regex)) =
      .fail [warnInvalidRegex "["] :=
  C7_invalid_regex_degrades envW (userMsg "abc") (userTurn "[" (some .regex))
    (by decide) (by decide) (by decide) (by decide) (by decide) rfl

/-- **C10**: the empty incoming list matches every flow with
`matchedLength = 0` and score `0`, so on a non-empty flow list the selector
returns the first-declared flow. -/
theorem C10_empty_matches_first (env : Env) (flow : List ConversationMessage)
    (mdl : String) (r : MockResponse) (rs : List MockResponse) :
    isMatchR env [] flow = ⟨true, 0, 0⟩ ∧
    findMatch env ⟨mdl, []⟩ (r :: rs) = some (r, 0) := by
  have hempty : ∀ fl : List ConversationMessage, isMatchR env [] fl = ⟨true, 0, 0⟩ := by
    intro fl
    rw [isMatchR, isMatch, if_neg (by simp)]
    simp [isMatchLoop]
  refine ⟨hempty flow, ?_⟩
  have hstep : findMatchLoop env [] (r :: rs) none =
      findMatchLoop env [] rs (some (r, 0, 0)) := by
    simp [findMatchLoop, hempty r.messages]
  rcases findMatchLoop_some env [] rs r 0 0 with ⟨res, hres, hdisj⟩
  have hresr : res = (r, 0, 0) := by
    rcases hdisj with ⟨heq, _⟩ | ⟨pre, r', post, _, _, _, hlt, _, _⟩
    · exact heq
    · exfalso
      rw [respScore, hempty r'.messages] at hlt
      exact absurd hlt (by norm_num)
  rw [findMatch]
  simp only [hstep, hres, hresr]

/-- Witness for C10. -/
theorem C10_empty_matches_first_w :
    isMatchR envW [] flowPartial = ⟨true, 0, 0⟩ ∧
    findMatch envW ⟨"m", []⟩ [flowB, flowA] = some (flowB, 0) :=
  C10_empty_matches_first envW flowPartial "m" flowB [flowA]

/-- **C4, counterexample**: with a configured threshold of `0` (a valid value
in `[0,1]`), the code compares similarity against `0.8` — `threshold || 0.8`
treats `0` as absent — not against the turn's threshold: a similarity of
`1/2` is rejected by the code but accepted by the claim as stated. -/
theorem C4_counterexample :
    (matchSingleMessage envF "q" "p" .fuzzy (some 0)).1 = false ∧
    fuzzyMatchSpec envF "q" "p" (some 0) = true := by
  have h1 : matchSingleMessage envF "q" "p" .fuzzy (some 0) =
      (decide ((1 - (some (1/2 : ℚ)).getD 0) ≥ numOrDefault (some 0) 0.8), []) := rfl
  have h2 : fuzzyMatchSpec envF "q" "p" (some 0) =
      decide ((1 - (some (1/2 : ℚ)).getD 0) ≥ (some (0 : ℚ)).getD 0.8) := rfl
  rw [h1, h2]
  constructor
  · rw [decide_eq_false_iff_not]
    simp only [numOrDefault, Option.getD_some]
    norm_num
  · rw [decide_eq_true_eq]
    simp only [Option.getD_some]
    norm_num

/-- **C4, amended**: the fuzzy position computes similarity `1 −` the first
result's distance of the search whose corpus is the single pattern, and
matches iff similarity ≥ the turn's threshold, with `0.8` used when the
threshold is omitted **or equal to 0** (JS falsy); for an omitted or
non-zero threshold this coincides with the claim as stated. -/
theorem C4_fuzzy_threshold_default (env : Env) (incomingContent patternContent : String)
    (threshold : Option ℚ) :
    ((matchSingleMessage env incomingContent patternContent .fuzzy threshold).1 =
      match env.fuseSearch patternContent incomingContent with
      | [] => false
      | r :: _ => decide ((1 - r.getD 0) ≥ numOrDefault threshold 0.8)) ∧
    (∀ t : ℚ, threshold = some t → t ≠ 0 →
      (matchSingleMessage env incomingContent patternContent .fuzzy threshold).1 =
        fuzzyMatchSpec env incomingContent patternContent threshold) ∧
    (threshold = none →
      (matchSingleMessage env incomingContent patternContent .fuzzy threshold).1 =
        fuzzyMatchSpec env incomingContent patternContent threshold) := by
  have hbase : matchSingleMessage env incomingContent patternContent .fuzzy threshold =
      (match env.fuseSearch patternContent incomingContent with
        | [] => (false, [])
        | r :: _ => (decide ((1 - r.getD 0) ≥ numOrDefault threshold 0.8), [])) := rfl
  refine ⟨?_, ?_, ?_⟩
  · rw [hbase]
    cases env.fuseSearch patternContent incomingContent <;> rfl
  · intro t ht hz
    subst ht
    rw [hbase, fuzzyMatchSpec]
    cases env.fuseSearch patternContent incomingContent with
    | nil => rfl
    | cons r rest =>
      simp only [numOrDefault, Option.getD_some, if_neg hz]
  · intro ht
    subst ht
    rw [hbase, fuzzyMatchSpec]
    cases env.fuseSearch patternContent incomingContent <;> rfl

/-- Witness for the amended C4 at the non-zero threshold `9/10`. -/
theorem C4_fuzzy_threshold_default_w :
    (matchSingleMessage envF "q" "p" .fuzzy (some (9/10))).1 =
      fuzzyMatchSpec envF "q" "p" (some (9/10)) :=
  (C4_fuzzy_threshold_default envF "q" "p" (some (9/10))).2.1 (9/10) rfl (by norm_num)

/-- **C8, counterexample**: a position whose flow turn lacks content — so
content-based matching is inapplicable in the claim's sense — but whose
matcher is `any` passes, and the candidate matches instead of failing. -/
theorem C8_counterexample :
    strTruthy userTurnAny.content = false ∧
    userTurnAny.role ≠ Role.tool ∧
    (isMatchR envW [userMsg "hi"] [userTurnAny, assistantTurn "ok"]).isMatch = true := by
  exact ⟨rfl, by decide, by decide⟩

/-- **C8, amended**: at a position that applies a content-requiring matcher
(roles agree, the turn's role is not `assistant`, its matcher is not `any`)
where either side's content is absent or empty: if the turn's role is `tool`
and both sides carry a non-empty `tool_call_id`, the position matches iff the
two ids are exactly equal, scored with the `exact` weight `1.0`; in every
other case the position fails, and with it the whole candidate. -/
theorem C8_tool_fallback (env : Env) (m : IncomingMessage) (f : ConversationMessage)
    (hr : m.role = f.role) (ha : f.role ≠ .assistant)
    (hk : f.matcher.getD .exact ≠ .any)
    (hc : strTruthy m.content = false ∨ strTruthy f.content = false) :
    ((f.role = Role.tool ∧ strTruthy m.tool_call_id = true ∧
        strTruthy f.tool_call_id = true) →
      evalPosition env m f =
        (if m.tool_call_id = f.tool_call_id then
          PosOutcome.scored (MATCHER_SCORES .exact) else PosOutcome.fail [])) ∧
    (¬(f.role = Role.tool ∧ strTruthy m.tool_call_id = true ∧
        strTruthy f.tool_call_id = true) →
      evalPosition env m f = PosOutcome.fail []) ∧
    (∀ (msgs : List IncomingMessage) (flow : List ConversationMessage) (i : Nat)
      (h1 : i < msgs.length) (h2 : i < flow.length),
      msgs.get ⟨i, h1⟩ = m → flow.get ⟨i, h2⟩ = f →
      evalPosition env m f = PosOutcome.fail [] →
      (isMatchR env msgs flow).isMatch = false) := by
  refine ⟨?_, ?_, ?_⟩
  · intro hcond
    rcases hc with hc | hc <;>
      simp [evalPosition, hr, ha, hk, hc, hcond.1, hcond.2.1, hcond.2.2]
  · intro hncond
    rcases hc with hc | hc <;>
      simp [evalPosition, hr, ha, hk, hc, hncond]
  · intro msgs flow i h1 h2 hm hf hfail
    apply isMatchR_fail_at env msgs flow i h1 h2
    rw [hm, hf, positionPasses, hfail]

/-- Witness for the amended C8: a matching `tool_call_id` fallback scores as
`exact`. -/
theorem C8_tool_fallback_w :
    evalPosition envW toolMsg toolTurn = .scored (MATCHER_SCORES .exact) := by
  have h := (C8_tool_fallback envW toolMsg toolTurn rfl (by decide) (by decide)
    (Or.inl (by decide))).1 ⟨rfl, by decide, by decide⟩
  rw [h]
  rfl

/-- **C9, counterexample**: two flows that differ only in the matcher type at
position 1 both match `["x"]` (position 1 is beyond the incoming prefix, so
both score `1.0`), and the selector returns the earlier-declared flow
`flowX1` — whose weight at the differing position (`any` = 0.1) is strictly
lower — not the higher-weighted `flowX2`. -/
theorem C9_counterexample :
    flowX1.messages = [userTurn "x" (some .exact), userTurn "y" (some .any)] ∧
    flowX2.messages = [userTurn "x" (some .exact), userTurn "y" (some .exact)] ∧
    userTurn "y" (some .any) = { userTurn "y" (some .exact) with matcher := some .any } ∧
    MATCHER_SCORES .any < MATCHER_SCORES .exact ∧
    respMatches envW [userMsg "x"] flowX1 = true ∧
    respMatches envW [userMsg "x"] flowX2 = true ∧
    findMatch envW ⟨"m", [userMsg "x"]⟩ [flowX1, flowX2] = some (flowX1, 1) := by
  refine ⟨rfl, rfl, rfl, by norm_num [MATCHER_SCORES], by decide, by decide, ?_⟩
  have h1 : isMatchR envW [userMsg "x"] flowX1.messages =
      ⟨true, 1, (0 + MATCHER_SCORES .exact) / ((0 + 1 : Nat) : ℚ)⟩ := rfl
  have h2 : isMatchR envW [userMsg "x"] flowX2.messages =
      ⟨true, 1, (0 + MATCHER_SCORES .exact) / ((0 + 1 : Nat) : ℚ)⟩ := rfl
  simp [findMatch, findMatchLoop, h1, h2, lt_self_iff_false]

/-- **C9, amended**: for two flows that differ only in the matcher type at
one position that lies within the incoming list, has a non-assistant role and
truthy content on both sides, and that both match the incoming list, the
flow whose weight at that position is strictly higher has the strictly
higher score, and the selector returns it under either declaration order. -/
theorem C9_score_order (env : Env) (mdl ida idb : String)
    (mpre mpost : List IncomingMessage) (m : IncomingMessage)
    (fpre fpost : List ConversationMessage) (fA fB : ConversationMessage)
    (hlen : mpre.length = fpre.length)
    (hfields : fA = { fB with matcher := fA.matcher })
    (hw : MATCHER_SCORES (fB.matcher.getD .exact) <
      MATCHER_SCORES (fA.matcher.getD .exact))
    (ha : fB.role ≠ .assistant)
    (hmc : strTruthy m.content = true) (hfc : strTruthy fB.content = true)
    (hA : (isMatchR env (mpre ++ m :: mpost) (fpre ++ fA :: fpost)).isMatch = true)
    (hB : (isMatchR env (mpre ++ m :: mpost) (fpre ++ fB :: fpost)).isMatch = true) :
    (isMatchR env (mpre ++ m :: mpost) (fpre ++ fB :: fpost)).score <
      (isMatchR env (mpre ++ m :: mpost) (fpre ++ fA :: fpost)).score ∧
    findMatch env ⟨mdl, mpre ++ m :: mpost⟩
        [⟨ida, fpre ++ fA :: fpost⟩, ⟨idb, fpre ++ fB :: fpost⟩] =
      some (⟨ida, fpre ++ fA :: fpost⟩,
        (isMatchR env (mpre ++ m :: mpost) (fpre ++ fA :: fpost)).matchedLength) ∧
    findMatch env ⟨mdl, mpre ++ m :: mpost⟩
        [⟨idb, fpre ++ fB :: fpost⟩, ⟨ida, fpre ++ fA :: fpost⟩] =
      some (⟨ida, fpre ++ fA :: fpost⟩,
        (isMatchR env (mpre ++ m :: mpost) (fpre ++ fA :: fpost)).matchedLength) := by
  have hroleA : fA.role = fB.role := by rw [hfields]
  have hcontA : fA.content = fB.content := by rw [hfields]
  have hzipA : (mpre ++ m :: mpost).zip (fpre ++ fA :: fpost) =
      mpre.zip fpre ++ (m, fA) :: mpost.zip fpost := by
    rw [List.zip_append hlen, List.zip_cons_cons]
  have hzipB : (mpre ++ m :: mpost).zip (fpre ++ fB :: fpost) =
      mpre.zip fpre ++ (m, fB) :: mpost.zip fpost := by
    rw [List.zip_append hlen, List.zip_cons_cons]
  have hallA := ((isMatchR_spec env (mpre ++ m :: mpost) (fpre ++ fA :: fpost)).1.mp hA).2
  have hallB := ((isMatchR_spec env (mpre ++ m :: mpost) (fpre ++ fB :: fpost)).1.mp hB).2
  have hpassA : positionPasses env m fA = true := by
    apply hallA (m, fA)
    rw [hzipA]
    simp
  have hpassB : positionPasses env m fB = true := by
    apply hallB (m, fB)
    rw [hzipB]
    simp
  have hwA : positionWeight env m fA =
      some (MATCHER_SCORES (fA.matcher.getD .exact)) := by
    rw [positionWeight, evalPosition_scored_weight env m fA hpassA
      (by rw [hroleA]; exact ha) hmc (by rw [hcontA]; exact hfc)]
  have hwB : positionWeight env m fB =
      some (MATCHER_SCORES (fB.matcher.getD .exact)) := by
    rw [positionWeight, evalPosition_scored_weight env m fB hpassB ha hmc hfc]
  have hfmA : (((mpre ++ m :: mpost).zip (fpre ++ fA :: fpost)).filterMap
        fun p => positionWeight env p.1 p.2) =
      ((mpre.zip fpre).filterMap fun p => positionWeight env p.1 p.2) ++
        MATCHER_SCORES (fA.matcher.getD .exact) ::
          ((mpost.zip fpost).filterMap fun p => positionWeight env p.1 p.2) := by
    rw [hzipA, List.filterMap_append, List.filterMap_cons, hwA]
  have hfmB : (((mpre ++ m :: mpost).zip (fpre ++ fB :: fpost)).filterMap
        fun p => positionWeight env p.1 p.2) =
      ((mpre.zip fpre).filterMap fun p => positionWeight env p.1 p.2) ++
        MATCHER_SCORES (fB.matcher.getD .exact) ::
          ((mpost.zip fpost).filterMap fun p => positionWeight env p.1 p.2) := by
    rw [hzipB, List.filterMap_append, List.filterMap_cons, hwB]
  have hsc : (isMatchR env (mpre ++ m :: mpost) (fpre ++ fB :: fpost)).score <
      (isMatchR env (mpre ++ m :: mpost) (fpre ++ fA :: fpost)).score := by
    rw [(isMatchR_spec env (mpre ++ m :: mpost) (fpre ++ fA :: fpost)).2 hA,
      (isMatchR_spec env (mpre ++ m :: mpost) (fpre ++ fB :: fpost)).2 hB]
    show avgQ _ < avgQ _
    rw [hfmA, hfmB]
    exact avgQ_lt _ _ _ _ hw
  have h2 := findMatch_two env ⟨mdl, mpre ++ m :: mpost⟩
    ⟨ida, fpre ++ fA :: fpost⟩ ⟨idb, fpre ++ fB :: fpost⟩ hA hB hsc
  exact ⟨hsc, h2.1, h2.2⟩

/-- Witness for the amended C9: `exact` beats `contains` at the differing
position under both declaration orders. -/
theorem C9_score_order_w :
    (isMatchR envW ([] ++ userMsg "Hello" :: [])
        ([] ++ turnHelloContains :: [assistantTurn "Hi"])).score <
      (isMatchR envW ([] ++ userMsg "Hello" :: [])
        ([] ++ turnHelloExact :: [assistantTurn "Hi"])).score ∧
    findMatch envW ⟨"m", [] ++ userMsg "Hello" :: []⟩
        [⟨"wa", [] ++ turnHelloExact :: [assistantTurn "Hi"]⟩,
          ⟨"wb", [] ++ turnHelloContains :: [assistantTurn "Hi"]⟩] =
      some (⟨"wa", [] ++ turnHelloExact :: [assistantTurn "Hi"]⟩,
        (isMatchR envW ([] ++ userMsg "Hello" :: [])
          ([] ++ turnHelloExact :: [assistantTurn "Hi"])).matchedLength) ∧
    findMatch envW ⟨"m", [] ++ userMsg "Hello" :: []⟩
        [⟨"wb", [] ++ turnHelloContains :: [assistantTurn "Hi"]⟩,
          ⟨"wa", [] ++ turnHelloExact :: [assistantTurn "Hi"]⟩] =
      some (⟨"wa", [] ++ turnHelloExact :: [assistantTurn "Hi"]⟩,
        (isMatchR envW ([] ++ userMsg "Hello" :: [])
          ([] ++ turnHelloExact :: [assistantTurn "Hi"])).matchedLength) :=
  C9_score_order envW "m" "wa" "wb" [] [] (userMsg "Hello") [] [assistantTurn "Hi"]
    turnHelloExact turnHelloContains rfl rfl
    (by norm_num [MATCHER_SCORES, turnHelloExact, turnHelloContains, userTurn])
    (by decide) (by decide) (by decide) (by decide) (by decide)

end OpenAIApiMock
